import Mathlib

/-!
Shallow embedding of the batch-downloader core of `downloader_cn.py`
(`download_one` and the aggregation in `main`).

Strings are modelled as `List Char`.  The filesystem is modelled by the
state of the single artifact path a call touches: `Option FileData`
(metadata: modification time, byte size, and whether the content is a
truncated leftover of a write that raised partway).  Remote behaviour is
an oracle `Nat → AttemptRes` giving the result of each fetch attempt.
-/

namespace Downloader

/-- Metadata of the file at the artifact path.  `incomplete` records that
the content is the truncated leftover of a `to_csv` call that raised
partway through writing. -/
structure FileData where
  mtime : Int
  size : Nat
  incomplete : Bool
deriving DecidableEq, Repr

/-- The status tag of an Outcome, mirroring the `"status"` strings
`"success" | "exists" | "empty" | "error"` of `download_one`
(`exist` stands for the Python string `"exists"`). -/
inductive Status where
  | success
  | exist
  | empty
  | error
deriving DecidableEq, Repr

/-- One per-symbol Outcome: the dict `{"status": ..., "code": ...}`. -/
structure Outcome where
  status : Status
  code : List Char
deriving DecidableEq, Repr

/-- What one fetch attempt does.
`exc`: `tk.history` (or anything before the emptiness test) raised.
`noRows`: `hist` is `None` or `hist.empty` (no exception).
`rows n wr`: `hist` has rows whose csv rendering is `n` bytes, and the
`to_csv` write either completes (`ok`) or raises after `k` bytes. -/
inductive WriteRes where
  | ok
  | fail (written : Nat)
deriving DecidableEq, Repr

inductive AttemptRes where
  | exc
  | noRows
  | rows (size : Nat) (wr : WriteRes)
deriving DecidableEq, Repr

/-- `item.split('&', 1)` when it succeeds in unpacking to two parts:
splits at the FIRST `'&'` only; `none` when no `'&'` occurs (the Python
unpacking `code, name = ...` then raises `ValueError`). -/
def splitFirstAux : List Char → Option (List Char × List Char)
  | [] => none
  | c :: cs =>
    if c = '&' then some ([], cs)
    else
      match splitFirstAux cs with
      | none => none
      | some (pre, post) => some (c :: pre, post)

/-- `item.split('&')[0]`: the prefix before the first `'&'`, the whole
string when no `'&'` occurs. -/
def firstField : List Char → List Char
  | [] => []
  | c :: cs => if c = '&' then [] else c :: firstField cs

/-- `DATA_EXPIRY_SECONDS = 3600`. -/
def DATA_EXPIRY_SECONDS : Int := 3600

/-- `os.path.join(DATA_DIR, f"{code}_{name}.csv")`. -/
def out_path (dataDir code name : List Char) : List Char :=
  dataDir ++ '/' :: code ++ '_' :: name ++ ".csv".data

/-- `f"{code}.SS" if code.startswith('6') else f"{code}.SZ"`. -/
def querySymbol (code : List Char) : List Char :=
  if code.head? = some '6' then code ++ ".SS".data else code ++ ".SZ".data

/-- The freshness test of `download_one`:
`os.path.exists(out_path)` and then
`time.time() - os.path.getmtime(out_path) < DATA_EXPIRY_SECONDS and
 os.path.getsize(out_path) > 1000`. -/
def freshCheck (file : Option FileData) (now : Int) : Bool :=
  match file with
  | none => false
  | some fd => decide (now - fd.mtime < DATA_EXPIRY_SECONDS) && decide (fd.size > 1000)

/-- Result of one call to `download_one`: the Outcome, the state of the
artifact path afterwards, the path that was targeted (`none` when the
identifier could not be split), the number of fetch attempts
(`tk.history` calls) and the number of inter-attempt backoff sleeps
(`time.sleep(random.randint(5, 12))`). -/
structure LoopRes where
  outcome : Outcome
  file : Option FileData
  fetches : Nat
  backoffs : Nat
deriving DecidableEq, Repr

structure DLResult where
  outcome : Outcome
  file : Option FileData
  path : Option (List Char)
  fetches : Nat
  backoffs : Nat
deriving DecidableEq, Repr

/-- The retry loop `for attempt in range(max_retries): ...` of
`download_one`, run over the list of remaining attempt indices.
Each iteration: jitter sleep, fetch; on rows, `to_csv` to the artifact
path and return `success` (a write raising after `k` bytes leaves the
truncated file and falls into the `except` branch); on no rows at the
last attempt return `empty`; on an exception at the last attempt return
`error`, otherwise backoff-sleep and continue.  The `[]` case is the
trailing `return {"status": "error", "code": code}` after the loop. -/
def runAttempts (ρ : Nat → AttemptRes) (code : List Char) (now : Int)
    (max_retries : Nat) : List Nat → Option FileData → LoopRes
  | [], file => ⟨⟨.error, code⟩, file, 0, 0⟩
  | attempt :: rest, file =>
    match ρ attempt with
    | .rows n .ok => ⟨⟨.success, code⟩, some ⟨now, n, false⟩, 1, 0⟩
    | .rows _ (.fail k) =>
      if attempt = max_retries - 1 then ⟨⟨.error, code⟩, some ⟨now, k, true⟩, 1, 0⟩
      else
        let r := runAttempts ρ code now max_retries rest (some ⟨now, k, true⟩)
        ⟨r.outcome, r.file, r.fetches + 1, r.backoffs + 1⟩
    | .noRows =>
      if attempt = max_retries - 1 then ⟨⟨.empty, code⟩, file, 1, 0⟩
      else
        let r := runAttempts ρ code now max_retries rest file
        ⟨r.outcome, r.file, r.fetches + 1, r.backoffs⟩
    | .exc =>
      if attempt = max_retries - 1 then ⟨⟨.error, code⟩, file, 1, 0⟩
      else
        let r := runAttempts ρ code now max_retries rest file
        ⟨r.outcome, r.file, r.fetches + 1, r.backoffs + 1⟩

/-- `download_one(item)`.  `file` is the state of the artifact path
`out_path` before the call, `now` the value of `time.time()`, `ρ` the
oracle for the fetch attempts.  A failed unpacking of
`item.split('&', 1)` lands in the outer `except`, which returns an
`error` Outcome tagged with `item.split('&')[0]`. -/
def download_one (dataDir : List Char) (item : List Char) (now : Int)
    (file : Option FileData) (ρ : Nat → AttemptRes) : DLResult :=
  match splitFirstAux item with
  | none => ⟨⟨.error, firstField item⟩, file, none, 0, 0⟩
  | some (code, name) =>
    let p := out_path dataDir code name
    if freshCheck file now then ⟨⟨.exist, code⟩, file, some p, 0, 0⟩
    else
      let r := runAttempts ρ code now 3 (List.range 3) file
      ⟨r.outcome, r.file, some p, r.fetches, r.backoffs⟩

/-- The counter dict `stats = {"success": 0, "exists": 0, "empty": 0, "error": 0}`. -/
structure Counters where
  success : Nat
  exist : Nat
  empty : Nat
  error : Nat
deriving DecidableEq, Repr

/-- `stats[res.get("status", "error")] += 1`. -/
def bump (c : Counters) : Status → Counters
  | .success => { c with success := c.success + 1 }
  | .exist => { c with exist := c.exist + 1 }
  | .empty => { c with empty := c.empty + 1 }
  | .error => { c with error := c.error + 1 }

/-- The accumulation of `stats` over the completed Outcomes, in the
(arbitrary) order they complete. -/
def tally (outs : List Status) : Counters :=
  outs.foldl bump ⟨0, 0, 0, 0⟩

/-- The record `download_stats = {"total": ..., "success": ..., "fail": ...}`. -/
structure RunStatistics where
  total : Nat
  success : Nat
  fail : Nat
deriving DecidableEq, Repr

/-- `total_expected = len(items)`,
`effective_success = stats['success'] + stats['exists']`,
`fail_count = stats['error'] + stats['empty']`. -/
def reduceOutcomes (total : Nat) (outs : List Outcome) : RunStatistics :=
  let s := tally (outs.map Outcome.status)
  ⟨total, s.success + s.exist, s.error + s.empty⟩

/-- The per-item Outcomes of one run: each item is handed to
`download_one` with its own artifact-file state and fetch oracle. -/
def outcomesOf (dataDir : List Char) (items : List (List Char)) (now : Int)
    (fileOf : List Char → Option FileData) (ρ : List Char → Nat → AttemptRes) :
    List Outcome :=
  items.map (fun it => (download_one dataDir it now (fileOf it) (ρ it)).outcome)

/-- `main()`: runs every item and reduces the Outcomes to RunStatistics. -/
def main (dataDir : List Char) (items : List (List Char)) (now : Int)
    (fileOf : List Char → Option FileData) (ρ : List Char → Nat → AttemptRes) :
    RunStatistics :=
  reduceOutcomes items.length (outcomesOf dataDir items now fileOf ρ)

/-- `True` when the attempt raises an exception inside the inner `try`
(the fetch itself raised, or the `to_csv` write raised partway). -/
def raisesB : AttemptRes → Bool
  | .exc => true
  | .rows _ (.fail _) => true
  | _ => false

/-! ### Helper lemmas -/

theorem splitFirstAux_eq_none (l : List Char) (h : '&' ∉ l) :
    splitFirstAux l = none := by
  induction l with
  | nil => rfl
  | cons c cs ih =>
    have hc : ¬c = '&' := fun hc => h (hc ▸ List.mem_cons_self c cs)
    have hcs : '&' ∉ cs := fun hm => h (List.mem_cons_of_mem c hm)
    simp [splitFirstAux, hc, ih hcs]

theorem firstField_of_not_mem (l : List Char) (h : '&' ∉ l) :
    firstField l = l := by
  induction l with
  | nil => rfl
  | cons c cs ih =>
    have hc : ¬c = '&' := fun hc => h (hc ▸ List.mem_cons_self c cs)
    have hcs : '&' ∉ cs := fun hm => h (List.mem_cons_of_mem c hm)
    simp [firstField, hc, ih hcs]

theorem splitFirstAux_append (pre post : List Char) (h : '&' ∉ pre) :
    splitFirstAux (pre ++ '&' :: post) = some (pre, post) := by
  induction pre with
  | nil => simp [splitFirstAux]
  | cons c cs ih =>
    have hc : ¬c = '&' := fun hc => h (hc ▸ List.mem_cons_self c cs)
    have hcs : '&' ∉ cs := fun hm => h (List.mem_cons_of_mem c hm)
    simp [splitFirstAux, hc, ih hcs]

theorem tally_go (s : List Status) (c : Counters) :
    s.foldl bump c =
      ⟨c.success + s.countP (fun x => x = Status.success),
       c.exist + s.countP (fun x => x = Status.exist),
       c.empty + s.countP (fun x => x = Status.empty),
       c.error + s.countP (fun x => x = Status.error)⟩ := by
  induction s generalizing c with
  | nil => simp [List.countP_nil]
  | cons a rest ih =>
    cases a <;>
      simp [bump, ih, List.countP_cons, Counters.mk.injEq] <;> omega

theorem tally_count (s : List Status) :
    tally s =
      ⟨s.countP (fun x => x = Status.success),
       s.countP (fun x => x = Status.exist),
       s.countP (fun x => x = Status.empty),
       s.countP (fun x => x = Status.error)⟩ := by
  simpa using tally_go s ⟨0, 0, 0, 0⟩

theorem countP_status_total (s : List Status) :
    s.countP (fun x => x = Status.success) + s.countP (fun x => x = Status.exist) +
      (s.countP (fun x => x = Status.error) + s.countP (fun x => x = Status.empty)) =
      s.length := by
  induction s with
  | nil => simp [List.countP_nil]
  | cons a rest ih =>
    cases a <;> simp [List.countP_cons] <;> omega

/-! ### Claim theorems -/

/-- C1: for every run, the returned RunStatistics satisfies
`total = success + fail` exactly, where `total` is the input symbol
count, `success` counts Outcomes tagged success or exists, and `fail`
counts Outcomes tagged error or empty. -/
theorem run_statistics_partition (dataDir : List Char) (items : List (List Char))
    (now : Int) (fileOf : List Char → Option FileData)
    (ρ : List Char → Nat → AttemptRes) :
    (main dataDir items now fileOf ρ).total =
      (main dataDir items now fileOf ρ).success +
        (main dataDir items now fileOf ρ).fail := by
  have h := countP_status_total
    ((outcomesOf dataDir items now fileOf ρ).map Outcome.status)
  have hlen : ((outcomesOf dataDir items now fileOf ρ).map Outcome.status).length
      = items.length := by
    simp [outcomesOf]
  simp only [main, reduceOutcomes, tally_count]
  omega

/-- C2: every input Symbol Identifier yields exactly one Outcome,
determined by that symbol's own state and oracle alone (so one symbol's
failure cannot affect another's Outcome or abort the run), and its tag
is one of success, exists, empty, error. -/
theorem one_outcome_per_symbol (dataDir : List Char) (items : List (List Char))
    (now : Int) (fileOf : List Char → Option FileData)
    (ρ : List Char → Nat → AttemptRes) :
    (outcomesOf dataDir items now fileOf ρ).length = items.length ∧
    (∀ i : Nat, (outcomesOf dataDir items now fileOf ρ)[i]? =
      (items[i]?).map
        (fun it => (download_one dataDir it now (fileOf it) (ρ it)).outcome)) ∧
    (∀ o ∈ outcomesOf dataDir items now fileOf ρ,
      o.status = Status.success ∨ o.status = Status.exist ∨
        o.status = Status.empty ∨ o.status = Status.error) := by
  refine ⟨by simp [outcomesOf], fun i => by simp [outcomesOf, List.getElem?_map], ?_⟩
  intro o _
  cases h : o.status <;> simp

/-- C7: the Aggregator's reduction is order-independent — any
permutation of the Outcome stream yields identical RunStatistics, and
reordering the input symbol sequence does not change the final
`{total, success, fail}`. -/
theorem stats_order_independent (dataDir : List Char) (now : Int)
    (fileOf : List Char → Option FileData) (ρ : List Char → Nat → AttemptRes)
    (n : Nat) (outs₁ outs₂ : List Outcome) (items₁ items₂ : List (List Char))
    (hout : outs₁.Perm outs₂) (hit : items₁.Perm items₂) :
    reduceOutcomes n outs₁ = reduceOutcomes n outs₂ ∧
    main dataDir items₁ now fileOf ρ = main dataDir items₂ now fileOf ρ := by
  have key : ∀ (m : Nat) (l₁ l₂ : List Outcome), l₁.Perm l₂ →
      reduceOutcomes m l₁ = reduceOutcomes m l₂ := by
    intro m l₁ l₂ h
    have hs : (l₁.map Outcome.status).Perm (l₂.map Outcome.status) := h.map _
    simp only [reduceOutcomes, tally_count]
    rw [hs.countP_eq, hs.countP_eq, hs.countP_eq, hs.countP_eq]
  refine ⟨key n outs₁ outs₂ hout, ?_⟩
  have hperm : (outcomesOf dataDir items₁ now fileOf ρ).Perm
      (outcomesOf dataDir items₂ now fileOf ρ) := hit.map _
  have hlen : items₁.length = items₂.length := hit.length_eq
  simpa [main, hlen] using
    key items₁.length _ _ hperm

/-- Witness for C7 on a two-element Outcome stream and a two-element
symbol list, each swapped. -/
theorem stats_order_independent_witness :
    ([⟨Status.success, "a".data⟩, ⟨Status.error, "b".data⟩] : List Outcome).Perm
        [⟨Status.error, "b".data⟩, ⟨Status.success, "a".data⟩] ∧
    (["x&A".data, "y&B".data] : List (List Char)).Perm
        ["y&B".data, "x&A".data] ∧
    (reduceOutcomes 2 [⟨Status.success, "a".data⟩, ⟨Status.error, "b".data⟩] =
        reduceOutcomes 2 [⟨Status.error, "b".data⟩, ⟨Status.success, "a".data⟩] ∧
      main "D".data ["x&A".data, "y&B".data] 0 (fun _ => none)
          (fun _ _ => AttemptRes.exc) =
        main "D".data ["y&B".data, "x&A".data] 0 (fun _ => none)
          (fun _ _ => AttemptRes.exc)) :=
  ⟨List.Perm.swap (⟨Status.error, "b".data⟩ : Outcome) ⟨Status.success, "a".data⟩ [],
    List.Perm.swap "y&B".data "x&A".data [],
    stats_order_independent "D".data 0 (fun _ => none) (fun _ _ => AttemptRes.exc) 2
      [⟨Status.success, "a".data⟩, ⟨Status.error, "b".data⟩]
      [⟨Status.error, "b".data⟩, ⟨Status.success, "a".data⟩]
      ["x&A".data, "y&B".data] ["y&B".data, "x&A".data]
      (List.Perm.swap (⟨Status.error, "b".data⟩ : Outcome) ⟨Status.success, "a".data⟩ [])
      (List.Perm.swap "y&B".data "x&A".data [])⟩

theorem runAttempts_fetches_pos (ρ : Nat → AttemptRes) (code : List Char)
    (now : Int) (m a : Nat) (rest : List Nat) (file : Option FileData) :
    1 ≤ (runAttempts ρ code now m (a :: rest) file).fetches := by
  cases h : ρ a with
  | exc => simp only [runAttempts, h]; split <;> simp
  | noRows => simp only [runAttempts, h]; split <;> simp
  | rows n wr =>
    cases wr with
    | ok => simp [runAttempts, h]
    | fail k => simp only [runAttempts, h]; split <;> simp

/-- C3: a symbol whose artifact file exists with age strictly below
3600 seconds and size strictly above 1000 bytes yields an `exists`
Outcome with zero fetch attempts (and the file untouched); a symbol
whose artifact is missing, expired, or undersized triggers at least one
fetch attempt. -/
theorem fresh_skips_stale_fetches (dataDir item code name : List Char)
    (now : Int) (file : Option FileData) (ρ : Nat → AttemptRes)
    (hsplit : splitFirstAux item = some (code, name)) :
    (∀ fd, file = some fd → now - fd.mtime < 3600 → 1000 < fd.size →
      download_one dataDir item now file ρ =
        ⟨⟨Status.exist, code⟩, file, some (out_path dataDir code name), 0, 0⟩) ∧
    ((file = none ∨ ∃ fd, file = some fd ∧ (3600 ≤ now - fd.mtime ∨ fd.size ≤ 1000)) →
      1 ≤ (download_one dataDir item now file ρ).fetches) := by
  constructor
  · intro fd hfd hage hsize
    have hfresh : freshCheck file now = true := by
      subst hfd
      simp [freshCheck, DATA_EXPIRY_SECONDS]
      exact ⟨hage, hsize⟩
    simp [download_one, hsplit, hfresh]
  · intro hstale
    have hfresh : freshCheck file now = false := by
      rcases hstale with h | ⟨fd, hfd, hbad⟩
      · simp [h, freshCheck]
      · subst hfd
        simp [freshCheck, DATA_EXPIRY_SECONDS]
        intro hage
        rcases hbad with hb | hb
        · omega
        · omega
    simp only [download_one, hsplit, hfresh, Bool.false_eq_true, if_false]
    have h3 : List.range 3 = [0, 1, 2] := rfl
    rw [h3]
    exact runAttempts_fetches_pos ρ code now 3 0 [1, 2] file

/-- Witness for C3 at a concrete fresh file and at a concrete stale one. -/
theorem fresh_skips_stale_fetches_witness :
    (splitFirstAux "600519&A".data = some ("600519".data, "A".data) ∧
      download_one "D".data "600519&A".data 600 (some ⟨0, 5000, false⟩) (fun _ => .exc) =
        ⟨⟨Status.exist, "600519".data⟩, some ⟨0, 5000, false⟩,
          some (out_path "D".data "600519".data "A".data), 0, 0⟩) ∧
    1 ≤ (download_one "D".data "600519&A".data 600 none (fun _ => .exc)).fetches := by
  refine ⟨⟨by decide, ?_⟩, ?_⟩
  · exact (fresh_skips_stale_fetches "D".data "600519&A".data "600519".data "A".data
      600 (some ⟨0, 5000, false⟩) (fun _ => .exc) (by decide)).1
      ⟨0, 5000, false⟩ rfl (by decide) (by decide)
  · exact (fresh_skips_stale_fetches "D".data "600519&A".data "600519".data "A".data
      600 none (fun _ => .exc) (by decide)).2 (Or.inl rfl)

/-- C6: an input with no `&` separator yields exactly one `error`
Outcome — the artifact state is untouched, no fetch is attempted, and
no exception escapes (`download_one` returns normally). -/
theorem malformed_identifier_yields_error (dataDir item : List Char) (now : Int)
    (file : Option FileData) (ρ : Nat → AttemptRes) (h : '&' ∉ item) :
    (download_one dataDir item now file ρ).outcome.status = Status.error ∧
    (download_one dataDir item now file ρ).file = file ∧
    (download_one dataDir item now file ρ).fetches = 0 := by
  simp [download_one, splitFirstAux_eq_none item h]

/-- Witness for C6 on the separator-free input `"000002X"`. -/
theorem malformed_identifier_yields_error_witness :
    '&' ∉ "000002X".data ∧
    ((download_one "D".data "000002X".data 0 none (fun _ => .exc)).outcome.status
        = Status.error ∧
      (download_one "D".data "000002X".data 0 none (fun _ => .exc)).file = none ∧
      (download_one "D".data "000002X".data 0 none (fun _ => .exc)).fetches = 0) :=
  ⟨by decide,
    malformed_identifier_yields_error "D".data "000002X".data 0 none
      (fun _ => .exc) (by decide)⟩

/-- C10: when the input contains no `&`, the `error` Outcome's code
field is the entire original input string
(`item.split('&')[0]` is the whole string). -/
theorem malformed_code_field_whole_input (dataDir item : List Char) (now : Int)
    (file : Option FileData) (ρ : Nat → AttemptRes) (h : '&' ∉ item) :
    (download_one dataDir item now file ρ).outcome.code = item := by
  simp [download_one, splitFirstAux_eq_none item h, firstField_of_not_mem item h]

/-- Witness for C10 on the separator-free input `"abc"`. -/
theorem malformed_code_field_whole_input_witness :
    '&' ∉ "abc".data ∧
    (download_one "D".data "abc".data 0 none (fun _ => .exc)).outcome.code
      = "abc".data :=
  ⟨by decide,
    malformed_code_field_whole_input "D".data "abc".data 0 none
      (fun _ => .exc) (by decide)⟩

/-- C8: a well-formed identifier is split at the first `&` only — the
code is the `&`-free prefix, the name is everything after the first `&`
(it may itself contain `&` and is not truncated) — and the artifact is
targeted at the deterministic path `{dataDir}/{code}_{name}.csv`. -/
theorem split_on_first_amp_path (dataDir pre post : List Char) (now : Int)
    (file : Option FileData) (ρ : Nat → AttemptRes) (h : '&' ∉ pre) :
    splitFirstAux (pre ++ '&' :: post) = some (pre, post) ∧
    (download_one dataDir (pre ++ '&' :: post) now file ρ).path =
      some (dataDir ++ '/' :: pre ++ '_' :: post ++ ".csv".data) := by
  have hs := splitFirstAux_append pre post h
  refine ⟨hs, ?_⟩
  by_cases hf : freshCheck file now <;> simp [download_one, hs, hf, out_path]

/-- Witness for C8 with the display name `"A&B"`, which contains `&`. -/
theorem split_on_first_amp_path_witness :
    '&' ∉ "600519".data ∧
    (splitFirstAux ("600519".data ++ '&' :: "A&B".data) =
        some ("600519".data, "A&B".data) ∧
      (download_one "D".data ("600519".data ++ '&' :: "A&B".data) 0 none
          (fun _ => AttemptRes.exc)).path =
        some ("D".data ++ '/' :: "600519".data ++ '_' :: "A&B".data ++ ".csv".data)) :=
  ⟨by decide,
    split_on_first_amp_path "D".data "600519".data "A&B".data 0 none
      (fun _ => AttemptRes.exc) (by decide)⟩

theorem runAttempts_empty_file_unchanged (ρ : Nat → AttemptRes)
    (code : List Char) (now : Int) (m : Nat) (l : List Nat)
    (file : Option FileData)
    (hnofail : ∀ i n k, ρ i ≠ AttemptRes.rows n (WriteRes.fail k))
    (h : (runAttempts ρ code now m l file).outcome.status = Status.empty) :
    (runAttempts ρ code now m l file).file = file := by
  induction l generalizing file with
  | nil => simp [runAttempts] at h
  | cons a rest ih =>
    cases hρ : ρ a with
    | rows n wr =>
      cases wr with
      | ok => simp [runAttempts, hρ] at h
      | fail k => exact absurd hρ (hnofail a n k)
    | noRows =>
      by_cases ha : a = m - 1
      · rw [ha] at hρ
        simp [runAttempts, ha, hρ]
      · simp only [runAttempts, hρ, if_neg ha] at h ⊢
        exact ih file h
    | exc =>
      by_cases ha : a = m - 1
      · rw [ha] at hρ
        simp [runAttempts, ha, hρ] at h
      · simp only [runAttempts, hρ, if_neg ha] at h ⊢
        exact ih file h

/-- C9 counterexample: attempt 1 fetches rows but the csv write raises
after 2000 bytes; attempts 2 and 3 return no rows.  The Outcome is
`empty`, yet the artifact path now holds a (truncated) file — and that
leftover is large and recent enough to pass the next run's freshness
check, so the next run does NOT behave as if the symbol was never
attempted. -/
theorem empty_outcome_with_leftover_file :
    (download_one "D".data "000001&N".data 0 none
        (fun i => if i = 0 then AttemptRes.rows 5000 (WriteRes.fail 2000)
          else AttemptRes.noRows)).outcome.status = Status.empty ∧
    (download_one "D".data "000001&N".data 0 none
        (fun i => if i = 0 then AttemptRes.rows 5000 (WriteRes.fail 2000)
          else AttemptRes.noRows)).file ≠ none ∧
    freshCheck (download_one "D".data "000001&N".data 0 none
        (fun i => if i = 0 then AttemptRes.rows 5000 (WriteRes.fail 2000)
          else AttemptRes.noRows)).file 0 = true := by
  decide

/-- C9 (amended): for a symbol whose Outcome is `empty`, provided no
fetch attempt's artifact write raised partway, the artifact path is
left exactly as it was — in particular nothing is cached for the
symbol, so a later run treats it like one never attempted. -/
theorem empty_outcome_leaves_file_unchanged (dataDir item : List Char)
    (now : Int) (file : Option FileData) (ρ : Nat → AttemptRes)
    (hnofail : ∀ i n k, ρ i ≠ AttemptRes.rows n (WriteRes.fail k))
    (hempty : (download_one dataDir item now file ρ).outcome.status = Status.empty) :
    (download_one dataDir item now file ρ).file = file := by
  cases hs : splitFirstAux item with
  | none => simp [download_one, hs]
  | some cn =>
    obtain ⟨code, name⟩ := cn
    by_cases hf : freshCheck file now
    · simp [download_one, hs, hf]
    · simp only [download_one, hs, hf, Bool.false_eq_true, if_false] at hempty ⊢
      exact runAttempts_empty_file_unchanged ρ code now 3 (List.range 3) file
        hnofail hempty

/-- Witness for C9 (amended): every attempt returns no rows; the stale
(undersized) pre-existing file is untouched. -/
theorem empty_outcome_leaves_file_unchanged_witness :
    (∀ i n k, (fun _ : Nat => AttemptRes.noRows) i ≠
        AttemptRes.rows n (WriteRes.fail k)) ∧
    (download_one "D".data "000001&N".data 0 (some ⟨0, 5, false⟩)
        (fun _ => AttemptRes.noRows)).outcome.status = Status.empty ∧
    (download_one "D".data "000001&N".data 0 (some ⟨0, 5, false⟩)
        (fun _ => AttemptRes.noRows)).file = some ⟨0, 5, false⟩ :=
  ⟨fun _ n k h => AttemptRes.noConfusion h, by decide,
    empty_outcome_leaves_file_unchanged "D".data "000001&N".data 0
      (some ⟨0, 5, false⟩) (fun _ => AttemptRes.noRows)
      (fun _ n k h => AttemptRes.noConfusion h) (by decide)⟩

/-- C4 counterexample: the artifact path starts empty; every attempt
fetches rows but the csv write raises after 10 bytes.  The destination
is NOT unchanged on the failed write: a truncated 10-byte file is left
at the final artifact position. -/
theorem partial_write_left_at_destination :
    (download_one "D".data "000001&PA".data 0 none
        (fun _ => AttemptRes.rows 5000 (WriteRes.fail 10))).file =
      some ⟨0, 10, true⟩ ∧
    (download_one "D".data "000001&PA".data 0 none
        (fun _ => AttemptRes.rows 5000 (WriteRes.fail 10))).file ≠ none ∧
    (download_one "D".data "000001&PA".data 0 none
        (fun _ => AttemptRes.rows 5000 (WriteRes.fail 10))).outcome.status =
      Status.error := by
  decide

/-- C4 (amended): the write to the artifact path is direct, not atomic:
a completed write replaces the destination whole, but a write that
fails partway leaves the truncated partially-written file at the final
artifact position (here shown when the first attempt's write completes,
and when every attempt's write fails after `k` bytes). -/
theorem write_full_replace_or_truncated_leftover (dataDir item code name : List Char)
    (now : Int) (file : Option FileData) (ρ : Nat → AttemptRes) (n k : Nat)
    (hsplit : splitFirstAux item = some (code, name))
    (hstale : freshCheck file now = false) :
    (ρ 0 = AttemptRes.rows n WriteRes.ok →
      download_one dataDir item now file ρ =
        ⟨⟨Status.success, code⟩, some ⟨now, n, false⟩,
          some (out_path dataDir code name), 1, 0⟩) ∧
    ((∀ i, ρ i = AttemptRes.rows n (WriteRes.fail k)) →
      download_one dataDir item now file ρ =
        ⟨⟨Status.error, code⟩, some ⟨now, k, true⟩,
          some (out_path dataDir code name), 3, 2⟩) := by
  have h3 : List.range 3 = [0, 1, 2] := rfl
  constructor
  · intro h0
    simp [download_one, hsplit, hstale, h3, runAttempts, h0]
  · intro hall
    simp [download_one, hsplit, hstale, h3, runAttempts, hall 0, hall 1, hall 2]

/-- Witness for C4 (amended) at a concrete item, both branches. -/
theorem write_full_replace_or_truncated_leftover_witness :
    (splitFirstAux "000001&PA".data = some ("000001".data, "PA".data) ∧
      freshCheck none 0 = false) ∧
    download_one "D".data "000001&PA".data 0 none
        (fun _ => AttemptRes.rows 5000 WriteRes.ok) =
      ⟨⟨Status.success, "000001".data⟩, some ⟨0, 5000, false⟩,
        some (out_path "D".data "000001".data "PA".data), 1, 0⟩ := by
  refine ⟨⟨by decide, by decide⟩, ?_⟩
  exact (write_full_replace_or_truncated_leftover "D".data "000001&PA".data
      "000001".data "PA".data 0 none (fun _ => AttemptRes.rows 5000 WriteRes.ok)
      5000 0 (by decide) (by decide)).1 rfl

/-- C5: the inter-attempt backoff sleep happens exactly once per
executed attempt that raised and was followed by another attempt —
equivalently, `backoffs` counts the raising attempts among all executed
attempts except the final one, so no backoff ever follows the final
attempt; in particular, when every one of the 3 attempts raises, the
Outcome is `error` with exactly 3 fetches and 2 backoff sleeps. -/
theorem backoff_never_after_final_attempt (dataDir item code name : List Char)
    (now : Int) (file : Option FileData) (ρ : Nat → AttemptRes)
    (hsplit : splitFirstAux item = some (code, name))
    (hstale : freshCheck file now = false) :
    (download_one dataDir item now file ρ).backoffs =
      (List.range ((download_one dataDir item now file ρ).fetches - 1)).countP
        (fun i => raisesB (ρ i)) ∧
    ((∀ i, ρ i = AttemptRes.exc) →
      (download_one dataDir item now file ρ).outcome.status = Status.error ∧
      (download_one dataDir item now file ρ).fetches = 3 ∧
      (download_one dataDir item now file ρ).backoffs = 2) := by
  have h3 : List.range 3 = [0, 1, 2] := rfl
  constructor
  · simp only [download_one, hsplit, hstale, Bool.false_eq_true, if_false, h3]
    rcases h0 : ρ 0 with _ | _ | ⟨n0, _ | k0⟩ <;>
      rcases h1 : ρ 1 with _ | _ | ⟨n1, _ | k1⟩ <;>
        rcases h2 : ρ 2 with _ | _ | ⟨n2, _ | k2⟩ <;>
          simp [runAttempts, h0, h1, h2, raisesB, List.range_succ, List.range_zero,
            List.countP_append, List.countP_cons, List.countP_nil]
  · intro hall
    simp [download_one, hsplit, hstale, h3, runAttempts, hall 0, hall 1, hall 2,
      raisesB]

/-- Witness for C5: symbol `000002`, no artifact, every attempt raises. -/
theorem backoff_never_after_final_attempt_witness :
    (splitFirstAux "000002&X".data = some ("000002".data, "X".data) ∧
      freshCheck none 0 = false) ∧
    ((download_one "D".data "000002&X".data 0 none (fun _ => AttemptRes.exc)).backoffs =
      (List.range ((download_one "D".data "000002&X".data 0 none
          (fun _ => AttemptRes.exc)).fetches - 1)).countP
        (fun i => raisesB ((fun _ => AttemptRes.exc) i)) ∧
      ((∀ i : Nat, (fun _ : Nat => AttemptRes.exc) i = AttemptRes.exc) →
        (download_one "D".data "000002&X".data 0 none
            (fun _ => AttemptRes.exc)).outcome.status = Status.error ∧
        (download_one "D".data "000002&X".data 0 none
            (fun _ => AttemptRes.exc)).fetches = 3 ∧
        (download_one "D".data "000002&X".data 0 none
            (fun _ => AttemptRes.exc)).backoffs = 2)) :=
  ⟨⟨by decide, by decide⟩,
    backoff_never_after_final_attempt "D".data "000002&X".data "000002".data
      "X".data 0 none (fun _ => AttemptRes.exc) (by decide) (by decide)⟩

end Downloader
